import Mathlib

/-!
Formal model of the smtogo email gateway core (request validation,
message composition, background dispatch and result recording),
shallowly embedded from the Go sources.

Go strings are byte slices; we model them as lists of bytes, so that
Go `len`, indexing and slicing act on bytes exactly as in the source.
-/

namespace Smtogo

/-- Go strings are byte slices: modelled as lists of bytes. -/
abbrev GoString := List UInt8

deriving instance DecidableEq for Except

/-- UTF-8 encoding of one character, as Go source-literal strings are UTF-8. -/
def charUTF8 (c : Char) : List UInt8 :=
  let n := c.toNat
  if n < 128 then [UInt8.ofNat n]
  else if n < 2048 then [UInt8.ofNat (192 + n / 64), UInt8.ofNat (128 + n % 64)]
  else if n < 65536 then
    [UInt8.ofNat (224 + n / 4096), UInt8.ofNat (128 + n / 64 % 64), UInt8.ofNat (128 + n % 64)]
  else
    [UInt8.ofNat (240 + n / 262144), UInt8.ofNat (128 + n / 4096 % 64),
     UInt8.ofNat (128 + n / 64 % 64), UInt8.ofNat (128 + n % 64)]

/-- The bytes of a Go string literal (UTF-8). -/
def bytes (s : String) : GoString := (s.data.map charUTF8).flatten

/-- Go `len` on a string: the number of bytes. -/
def goLen (s : GoString) : Nat := s.length

/-- Go `%d` formatting of an `int`, as bytes. -/
def intBytes (i : Int) : GoString := bytes (toString i)

/-- Go `strings.Contains(s, "@")`: the byte `'@'` (64) occurs in `s`
(a one-byte ASCII needle occurs as a substring iff it occurs as a byte). -/
def goContainsAt (s : GoString) : Bool := s.contains 64

/-- ASCII whitespace test used to model Go `strings.TrimSpace`
(the config and header values involved here are ASCII). -/
def isSpaceByte (b : UInt8) : Bool :=
  b = 32 || b = 9 || b = 10 || b = 13 || b = 11 || b = 12

/-- Model of Go `strings.TrimSpace`. -/
def goTrimSpace (s : GoString) : GoString :=
  ((s.dropWhile isSpaceByte).reverse.dropWhile isSpaceByte).reverse

/-- ASCII lowercasing of one byte, modelling Go `strings.ToLower`
on the ASCII header keys relevant here. -/
def lowerByte (b : UInt8) : UInt8 :=
  if 65 ≤ b && b ≤ 90 then b + 32 else b

/-- Model of Go `strings.ToLower` (ASCII). -/
def goToLower (s : GoString) : GoString := s.map lowerByte

/-- `internal/config.Config` (the recognized configuration keys). -/
structure Config where
  apiKey : GoString
  apiName : GoString
  apiDescription : GoString
  port : Int
  smtpServer : GoString
  smtpPort : Int
  useSSL : Bool
  usePassword : Bool
  useTLS : Bool
  maxLenRecipientEmail : Int
  maxLenSubject : Int
  maxLenBody : Int
  senderEmail : GoString
  senderEmailDisplay : GoString
  senderDomain : GoString
  senderPassword : GoString
deriving DecidableEq, Repr

/-- `internal/models.EmailRequest`. -/
structure EmailRequest where
  recipientEmail : GoString
  subject : GoString
  body : GoString
  bodyType : GoString
  debug : Bool
deriving DecidableEq, Repr

/-- `Config.GetDisplayEmail`: the display email, falling back to the
sender email when the display value is blank. -/
def GetDisplayEmail (c : Config) : GoString :=
  if goTrimSpace c.senderEmailDisplay ≠ [] then c.senderEmailDisplay
  else c.senderEmail

/-- A single quote byte, used in source error messages. -/
def squote : GoString := [39]

/-- `validateEmailRequest` from `internal/api/handlers.go`: the five
checks in source order, first failure wins. -/
def validateEmailRequest (cfg : Config) (req : EmailRequest) : Except GoString Unit :=
  if (goLen req.recipientEmail : Int) > cfg.maxLenRecipientEmail then
    .error (bytes "email address must be less than " ++
      intBytes cfg.maxLenRecipientEmail ++ bytes " characters")
  else if (goLen req.subject : Int) > cfg.maxLenSubject then
    .error (bytes "subject must be less than " ++
      intBytes cfg.maxLenSubject ++ bytes " characters")
  else if (goLen req.body : Int) > cfg.maxLenBody then
    .error (bytes "body content must be less than " ++
      intBytes cfg.maxLenBody ++ bytes " characters")
  else if req.bodyType ≠ bytes "plain" ∧ req.bodyType ≠ bytes "html" then
    .error (bytes "body type must be either " ++ squote ++ bytes "plain" ++ squote ++
      bytes " or " ++ squote ++ bytes "html" ++ squote)
  else if ¬ goContainsAt req.recipientEmail then
    .error (bytes "invalid email address format")
  else .ok ()

/-! ## Result recording (`internal/email/sender.go`, `saveEmailResult`) -/

/-- `internal/models.EmailResult`: the outcome record serialized to JSON. -/
structure EmailResult where
  emailId : GoString
  status : GoString
  detail : GoString
  timestamp : GoString
  clientIP : GoString
  headers : List (GoString × GoString)
  messageLength : Int
deriving DecidableEq, Repr

/-- A path in the `data/` tree: `data/{date}/{statusDir}/{fileName}`. -/
structure RecordPath where
  date : GoString
  statusDir : GoString
  fileName : GoString
deriving DecidableEq, Repr

/-- The outcome-record file tree, one `EmailResult` per path. -/
abbrev FileSys := List (RecordPath × EmailResult)

/-- `os.WriteFile` semantics on the tree: creates or overwrites the
file at `p` (at most one entry per path). -/
def writeRecord (fs : FileSys) (p : RecordPath) (r : EmailResult) : FileSys :=
  (p, r) :: fs.filter (fun e => e.1 ≠ p)

/-- The status directory chosen by `saveEmailResult`:
`success` for status `"success"`, otherwise `failure`. -/
def statusDirOf (status : GoString) : GoString :=
  if status = bytes "success" then bytes "success" else bytes "failure"

/-- `saveEmailResult`: writes the JSON outcome record at
`data/{date}/{statusDir}/{emailID}.json` (the wall-clock date and
RFC3339 timestamp are passed in explicitly, modelling `time.Now()`). -/
def saveEmailResult (fs : FileSys) (emailID status detail clientIP : GoString)
    (headers : List (GoString × GoString)) (messageLength : Int)
    (date timestamp : GoString) : FileSys :=
  writeRecord fs
    ⟨date, statusDirOf status, emailID ++ bytes ".json"⟩
    ⟨emailID, status, detail, timestamp, clientIP, headers, messageLength⟩

/-- All records stored for a given identifier (its `.json` outcome
files across the date/status tree). -/
def recordsOfId (fs : FileSys) (emailID : GoString) : FileSys :=
  fs.filter (fun e => e.1.fileName = emailID ++ bytes ".json")

/-! ## Attachment naming (`handlers.go` staging, `sender.go` decoding) -/

/-- The object name built at staging time
(`fmt.Sprintf("%s_%s", uuid.New().String(), file.Filename)`):
the unique id, a `'_'` byte, then the original filename. -/
def mkObjectName (uuid filename : GoString) : GoString :=
  uuid ++ bytes "_" ++ filename

/-- The filename recovery in `addAttachment`: if the object name is
longer than 36 bytes and byte 36 is `'_'` (95), drop the 37-byte
unique id; otherwise keep the object name as the filename. -/
def decodeAttachmentFilename (objectName : GoString) : GoString :=
  if objectName.length > 36 ∧ objectName[36]? = some 95 then
    objectName.drop 37
  else objectName

/-! ## Message composition: the From header (both source variants) -/

/-- A value set for the `From` header: either a bare address
(`m.SetHeader`) or an address wrapped with a display name
(`m.SetAddressHeader(field, address, name)`). -/
inductive FromHeaderValue where
  | plainAddr (address : GoString)
  | withDisplayName (address name : GoString)
deriving DecidableEq, Repr

/-- The From header set by `SendEmail` in the non-attachment variant
(the one carrying the SMTP-553-avoidance rule): under authentication a
distinct display identity is wrapped around the authenticated sender
address; without authentication the display identity is used verbatim. -/
def fromHeaderNoAttach (cfg : Config) : FromHeaderValue :=
  if cfg.usePassword then
    let displayEmail := GetDisplayEmail cfg
    if displayEmail ≠ cfg.senderEmail then
      .withDisplayName cfg.senderEmail displayEmail
    else .plainAddr cfg.senderEmail
  else .plainAddr (GetDisplayEmail cfg)

/-- The From header set by `SendEmail` in the attachment variant
(`internal/email/sender.go` line 38): always
`m.SetHeader("From", s.config.GetDisplayEmail())`. -/
def fromHeaderAttach (cfg : Config) : FromHeaderValue :=
  .plainAddr (GetDisplayEmail cfg)

/-! ## Background dispatch (`SendEmail`, attachment variant) -/

/-- The attachment loop of `SendEmail`: each non-empty object name is
fetched from storage via `addAttachment`; the first fetch error aborts
with the wrapped error message (`addAttachment` wraps the storage error
as `failed to get file from storage: ...`). The storage collaborator is
an oracle from object name to content or error. -/
def addAttachments (getFile : GoString → Except GoString GoString) :
    List GoString → Except GoString Unit
  | [] => .ok ()
  | objectName :: rest =>
    if objectName = [] then addAttachments getFile rest
    else
      match getFile objectName with
      | .error e => .error (bytes "failed to get file from storage: " ++ e)
      | .ok _ => addAttachments getFile rest

/-- `SendEmail` from `internal/email/sender.go`: adds attachments (a
failure records a `failure` outcome with message length 0 and returns
the error), computes the approximate message length, calls the SMTP
transport (modelled as an oracle outcome), and records the terminal
outcome. Returns whether an error was returned, plus the file tree. -/
def SendEmail (req : EmailRequest) (emailID clientIP : GoString)
    (headers : List (GoString × GoString)) (attachmentNames : List GoString)
    (getFile : GoString → Except GoString GoString)
    (transport : Except GoString Unit)
    (date timestamp : GoString) (fs : FileSys) : Bool × FileSys :=
  match addAttachments getFile attachmentNames with
  | .error e =>
    (true, saveEmailResult fs emailID (bytes "failure")
      (bytes "Failed to add attachment: " ++ e) clientIP headers 0 date timestamp)
  | .ok () =>
    let messageLength : Int := goLen req.subject + goLen req.body + goLen req.recipientEmail
    match transport with
    | .error e =>
      (true, saveEmailResult fs emailID (bytes "failure")
        (bytes "Failed to send email: " ++ e) clientIP headers messageLength date timestamp)
    | .ok () =>
      (false, saveEmailResult fs emailID (bytes "success")
        (bytes "Email sent successfully") clientIP headers messageLength date timestamp)

/-! ## HTTP handlers (`internal/api/handlers.go`) -/

/-- The handler responses relevant to the send endpoints. -/
inductive Response where
  | badRequest (errMsg : GoString)
  | serverError (errMsg : GoString)
  | okAccepted (emailID : GoString)
deriving DecidableEq, Repr

/-- `sendEmail` (JSON endpoint) together with the background dispatch
it spawns: on validation failure it answers 400 with the validator's
message and nothing else happens; on success it answers 200 with the
fresh identifier and the goroutine runs `SendEmail` with no
attachments. The fresh uuid, the transport outcome and the clock are
oracles. -/
def sendEmailHandler (cfg : Config) (req : EmailRequest)
    (freshId clientIP : GoString) (headers : List (GoString × GoString))
    (transport : Except GoString Unit)
    (date timestamp : GoString) (fs : FileSys) : Response × FileSys :=
  match validateEmailRequest cfg req with
  | .error e => (.badRequest e, fs)
  | .ok () =>
    (.okAccepted freshId,
      (SendEmail req freshId clientIP headers [] (fun _ => .ok []) transport
        date timestamp fs).2)

/-- An uploaded multipart file part: declared filename, size and bytes. -/
structure FileUpload where
  filename : GoString
  size : Int
  content : GoString
deriving DecidableEq, Repr

/-- The object store contents: object name to stored bytes. -/
abbrev ObjectStore := List (GoString × GoString)

/-- The per-file staging loop of `sendEmailWithAttachments`: for each
file, reject sizes over 2 MiB (400), build the unique object name from
the next uuid, and upload (a storage failure answers 500). Returns the
staged object names and the store, or the error response with the
store as already mutated (no rollback in the source). -/
def stageFiles (uuids : Nat → GoString) (uploadOk : GoString → Bool)
    (i : Nat) (store : ObjectStore) :
    List FileUpload → Except Response (List GoString) × ObjectStore
  | [] => (.ok [], store)
  | f :: rest =>
    if f.size > 2 * 1024 * 1024 then
      (.error (.badRequest (bytes "Attachments must be smaller than 2MB")), store)
    else
      let objectName := mkObjectName (uuids i) f.filename
      if uploadOk objectName then
        match stageFiles uuids uploadOk (i + 1) ((objectName, f.content) :: store) rest with
        | (.ok names, store') => (.ok (objectName :: names), store')
        | (.error r, store') => (.error r, store')
      else (.error (.serverError (bytes "Failed to upload attachment")), store)

/-- The body-type defaulting done by `sendEmailWithAttachments` before
validation: an empty form value becomes `plain`. -/
def defaultBodyType (req0 : EmailRequest) : EmailRequest :=
  if req0.bodyType = [] then { req0 with bodyType := bytes "plain" } else req0

/-- `sendEmailWithAttachments`: defaults an empty body type to
`plain`, validates, enforces the 2-attachment ceiling before any
upload, stages the files, and spawns the dispatch. Returns the
response, the object store and the file tree. -/
def sendEmailWithAttachmentsHandler (cfg : Config) (req0 : EmailRequest)
    (files : List FileUpload) (uuids : Nat → GoString)
    (uploadOk : GoString → Bool) (freshId clientIP : GoString)
    (headers : List (GoString × GoString))
    (getFile : GoString → Except GoString GoString)
    (transport : Except GoString Unit)
    (date timestamp : GoString) (fs : FileSys) :
    Response × ObjectStore × FileSys :=
  let req := defaultBodyType req0
  match validateEmailRequest cfg req with
  | .error e => (.badRequest e, [], fs)
  | .ok () =>
    if files.length > 2 then
      (.badRequest (bytes "You can only upload up to 2 attachments"), [], fs)
    else
      match stageFiles uuids uploadOk 0 [] files with
      | (.error r, store) => (r, store, fs)
      | (.ok attachmentNames, store) =>
        (.okAccepted freshId, store,
          (SendEmail req freshId clientIP headers attachmentNames getFile transport
            date timestamp fs).2)

/-- `getHeaders`: the sanitized copy of the request headers — for each
header with at least one value whose lowercased key is not
`x-api-key`, keep the key with its first value. -/
def getHeaders (reqHeaders : List (GoString × List GoString)) :
    List (GoString × GoString) :=
  reqHeaders.filterMap (fun kv =>
    match kv.2 with
    | [] => none
    | v :: _ =>
      if goToLower kv.1 ≠ bytes "x-api-key" then some (kv.1, v) else none)

/-! ## Configuration loading (`internal/config/config.go`) -/

/-- Go `strings.Index(line, "//")`: the byte index of the first
position where the substring `"//"` (bytes 47, 47) begins, if any. -/
def idxSS : GoString → Option Nat
  | [] => none
  | b :: rest =>
    if [47, 47] <+: b :: rest then some 0
    else (idxSS rest).map (· + 1)

/-- The per-line step of `removeJSONComments`: when `"//"` occurs, keep
only the part before it and `TrimSpace` it; otherwise keep the line. -/
def stripLineComment (line : GoString) : GoString :=
  match idxSS line with
  | some p => goTrimSpace (line.take p)
  | none => line

/-- Go `strings.Split(s, "\n")` at the byte level. -/
def splitNL : GoString → List GoString
  | [] => [[]]
  | b :: rest =>
    if b = 10 then [] :: splitNL rest
    else
      match splitNL rest with
      | line :: more => (b :: line) :: more
      | [] => [[b]]

/-- Go `strings.Join(lines, "\n")` at the byte level. -/
def joinNL (lines : List GoString) : GoString :=
  (lines.intersperse (bytes "\n")).flatten

/-- `removeJSONComments`: split into lines, strip each line's comment
(with trimming), and rejoin. -/
def removeJSONComments (data : GoString) : GoString :=
  joinNL ((splitNL data).map stripLineComment)

/-- Go `strings.HasSuffix`. -/
def goHasSuffix (s suffix : GoString) : Bool :=
  decide (suffix <:+ s)

/-- The pre-parse step of `loadFromFile`: comments are stripped exactly
when the path carries the `.jsonc` suffix. -/
def preprocessConfigData (path data : GoString) : GoString :=
  if goHasSuffix path (bytes ".jsonc") then removeJSONComments data else data

/-- `Config.setDefaults`: blank API name/description and zero length
limits are replaced by their defaults. -/
def setDefaults (c : Config) : Config :=
  let c := if c.apiName = [] then
    { c with apiName := bytes "High-Performance SMTP API" } else c
  let c := if c.apiDescription = [] then
    { c with apiDescription := bytes "SMTP API mail dispatch with support for attachments." } else c
  let c := if c.maxLenRecipientEmail = 0 then { c with maxLenRecipientEmail := 64 } else c
  let c := if c.maxLenSubject = 0 then { c with maxLenSubject := 255 } else c
  let c := if c.maxLenBody = 0 then { c with maxLenBody := 50000 } else c
  c

/-! ## Shared concrete sample values for witnesses -/

/-- A sample configuration with the default limits. -/
def sampleConfig : Config where
  apiKey := []
  apiName := bytes "High-Performance SMTP API"
  apiDescription := bytes "SMTP API mail dispatch with support for attachments."
  port := 8000
  smtpServer := bytes "smtp.example.com"
  smtpPort := 587
  useSSL := false
  usePassword := true
  useTLS := true
  maxLenRecipientEmail := 64
  maxLenSubject := 255
  maxLenBody := 50000
  senderEmail := bytes "auth@example.com"
  senderEmailDisplay := bytes "display@example.com"
  senderDomain := bytes "example.com"
  senderPassword := bytes "pw"

/-- A sample valid request. -/
def sampleRequest : EmailRequest where
  recipientEmail := bytes "user@example.com"
  subject := bytes "Hi"
  body := bytes "Hello"
  bodyType := bytes "plain"
  debug := false

/-! ## Claim theorems -/

/-- C1: `validateEmailRequest` applies exactly the five checks in the
fixed source order — recipient length, subject length, body length,
body type in { plain, html }, recipient containing `@` — returning the
error of the first failing check (no aggregation), returning ok
exactly when all five pass, and each length-check error message cites
the configured threshold. -/
theorem c1_validate_five_checks_in_order (cfg : Config) (req : EmailRequest) :
    (validateEmailRequest cfg req = .ok () ↔
      ((goLen req.recipientEmail : Int) ≤ cfg.maxLenRecipientEmail ∧
       (goLen req.subject : Int) ≤ cfg.maxLenSubject ∧
       (goLen req.body : Int) ≤ cfg.maxLenBody ∧
       (req.bodyType = bytes "plain" ∨ req.bodyType = bytes "html") ∧
       goContainsAt req.recipientEmail = true)) ∧
    ((goLen req.recipientEmail : Int) > cfg.maxLenRecipientEmail →
      validateEmailRequest cfg req = .error (bytes "email address must be less than " ++
        intBytes cfg.maxLenRecipientEmail ++ bytes " characters")) ∧
    ((goLen req.recipientEmail : Int) ≤ cfg.maxLenRecipientEmail →
     (goLen req.subject : Int) > cfg.maxLenSubject →
      validateEmailRequest cfg req = .error (bytes "subject must be less than " ++
        intBytes cfg.maxLenSubject ++ bytes " characters")) ∧
    ((goLen req.recipientEmail : Int) ≤ cfg.maxLenRecipientEmail →
     (goLen req.subject : Int) ≤ cfg.maxLenSubject →
     (goLen req.body : Int) > cfg.maxLenBody →
      validateEmailRequest cfg req = .error (bytes "body content must be less than " ++
        intBytes cfg.maxLenBody ++ bytes " characters")) ∧
    ((goLen req.recipientEmail : Int) ≤ cfg.maxLenRecipientEmail →
     (goLen req.subject : Int) ≤ cfg.maxLenSubject →
     (goLen req.body : Int) ≤ cfg.maxLenBody →
     ¬ (req.bodyType = bytes "plain" ∨ req.bodyType = bytes "html") →
      validateEmailRequest cfg req = .error (bytes "body type must be either " ++ squote ++
        bytes "plain" ++ squote ++ bytes " or " ++ squote ++ bytes "html" ++ squote)) ∧
    ((goLen req.recipientEmail : Int) ≤ cfg.maxLenRecipientEmail →
     (goLen req.subject : Int) ≤ cfg.maxLenSubject →
     (goLen req.body : Int) ≤ cfg.maxLenBody →
     (req.bodyType = bytes "plain" ∨ req.bodyType = bytes "html") →
     goContainsAt req.recipientEmail = false →
      validateEmailRequest cfg req = .error (bytes "invalid email address format")) := by
  refine ⟨?_, ?_, ?_, ?_, ?_, ?_⟩
  · constructor
    · intro h
      unfold validateEmailRequest at h
      split_ifs at h with h1 h2 h3 h4 h5
      refine ⟨not_lt.mp h1, not_lt.mp h2, not_lt.mp h3, ?_, by simpa using h5⟩
      by_cases hp : req.bodyType = bytes "plain"
      · exact Or.inl hp
      · right
        by_contra hh
        exact h4 ⟨hp, hh⟩
    · rintro ⟨h1, h2, h3, h4, h5⟩
      unfold validateEmailRequest
      rw [if_neg (not_lt.mpr h1), if_neg (not_lt.mpr h2), if_neg (not_lt.mpr h3),
        if_neg (by rcases h4 with h | h <;> simp [h]),
        if_neg (by simp [h5])]
  · intro h1
    unfold validateEmailRequest
    rw [if_pos h1]
  · intro h1 h2
    unfold validateEmailRequest
    rw [if_neg (not_lt.mpr h1), if_pos h2]
  · intro h1 h2 h3
    unfold validateEmailRequest
    rw [if_neg (not_lt.mpr h1), if_neg (not_lt.mpr h2), if_pos h3]
  · intro h1 h2 h3 h4
    unfold validateEmailRequest
    rw [if_neg (not_lt.mpr h1), if_neg (not_lt.mpr h2), if_neg (not_lt.mpr h3),
      if_pos ⟨fun hp => h4 (Or.inl hp), fun hh => h4 (Or.inr hh)⟩]
  · intro h1 h2 h3 h4 h5
    unfold validateEmailRequest
    rw [if_neg (not_lt.mpr h1), if_neg (not_lt.mpr h2), if_neg (not_lt.mpr h3),
      if_neg (by rcases h4 with h | h <;> simp [h]), if_pos (by simp [h5])]

/-- C1 witness: on a concrete valid request validation succeeds, by the
ok-direction of the theorem at the default limits. -/
theorem c1_validate_five_checks_in_order_witness :
    validateEmailRequest sampleConfig sampleRequest = .ok () :=
  (c1_validate_five_checks_in_order sampleConfig sampleRequest).1.mpr (by decide)

/-- C2: when the recipient length exceeds the configured limit, the
send handler answers 400 with the message citing that limit, returns
no identifier, starts no dispatch, and the outcome-record tree is left
untouched (no outcome record is ever produced for the request). -/
theorem c2_overlong_recipient_rejected_before_dispatch
    (cfg : Config) (req : EmailRequest) (freshId clientIP : GoString)
    (headers : List (GoString × GoString)) (transport : Except GoString Unit)
    (date timestamp : GoString) (fs : FileSys)
    (h : (goLen req.recipientEmail : Int) > cfg.maxLenRecipientEmail) :
    sendEmailHandler cfg req freshId clientIP headers transport date timestamp fs =
      (.badRequest (bytes "email address must be less than " ++
        intBytes cfg.maxLenRecipientEmail ++ bytes " characters"), fs) := by
  have hv : validateEmailRequest cfg req =
      .error (bytes "email address must be less than " ++
        intBytes cfg.maxLenRecipientEmail ++ bytes " characters") := by
    unfold validateEmailRequest
    rw [if_pos h]
  unfold sendEmailHandler
  rw [hv]

/-- A request whose recipient is 65 bytes long. -/
def longRecipientRequest : EmailRequest where
  recipientEmail := List.replicate 65 97
  subject := bytes "Hi"
  body := bytes "Hello"
  bodyType := bytes "plain"
  debug := false

/-- C2 witness: a concrete 65-byte recipient against the default limit
of 64 is rejected with the message citing 64, leaving the tree empty. -/
theorem c2_overlong_recipient_rejected_before_dispatch_witness :
    sendEmailHandler sampleConfig longRecipientRequest (bytes "id-1") (bytes "1.2.3.4")
      [] (.ok ()) (bytes "2026-10-11") (bytes "t") [] =
    (.badRequest (bytes "email address must be less than 64 characters"), []) := by
  rw [c2_overlong_recipient_rejected_before_dispatch sampleConfig longRecipientRequest
    (bytes "id-1") (bytes "1.2.3.4") [] (.ok ()) (bytes "2026-10-11") (bytes "t") []
    (by decide)]
  decide

/-- Filtering a file tree cannot create records for an identifier that
had none. -/
theorem recordsOfId_filter_nil (fs : FileSys) (emailID : GoString)
    (q : RecordPath × EmailResult → Bool)
    (h : recordsOfId fs emailID = []) : recordsOfId (fs.filter q) emailID = [] := by
  unfold recordsOfId at h ⊢
  rw [List.filter_eq_nil_iff] at h ⊢
  intro a ha
  exact h a (List.mem_of_mem_filter ha)

/-- C3 counterexample: recording a `success` and then a `failure`
outcome under the same identifier (same date) leaves two records for
that identifier — the two status directories give distinct paths, so
the second call does not overwrite the first. -/
theorem c3_record_idempotence_counterexample :
    (recordsOfId
      (saveEmailResult
        (saveEmailResult [] (bytes "id-1") (bytes "success")
          (bytes "Email sent successfully") (bytes "ip") [] 7
          (bytes "2026-10-11") (bytes "t1"))
        (bytes "id-1") (bytes "failure")
        (bytes "Failed to send email: x") (bytes "ip") [] 7
        (bytes "2026-10-11") (bytes "t2"))
      (bytes "id-1")).length = 2 ∧
    ¬ (recordsOfId
      (saveEmailResult
        (saveEmailResult [] (bytes "id-1") (bytes "success")
          (bytes "Email sent successfully") (bytes "ip") [] 7
          (bytes "2026-10-11") (bytes "t1"))
        (bytes "id-1") (bytes "failure")
        (bytes "Failed to send email: x") (bytes "ip") [] 7
        (bytes "2026-10-11") (bytes "t2"))
      (bytes "id-1")).length = 1 := by decide

/-- C3 (amended): recording is idempotent by identifier within a
status category — for two outcomes recorded on the same date whose
statuses fall in the same status directory, under an identifier with no
prior records, the second call overwrites the first: exactly one
record for that identifier remains, and it reflects the second write.
(Outcomes with differing status categories or dates land at distinct
paths and both persist.) -/
theorem c3_record_overwrites_same_status (fs : FileSys)
    (emailID s1 d1 ip1 s2 d2 ip2 : GoString)
    (h1 h2 : List (GoString × GoString)) (ml1 ml2 : Int)
    (date ts1 ts2 : GoString)
    (hfresh : recordsOfId fs emailID = [])
    (hsame : statusDirOf s1 = statusDirOf s2) :
    recordsOfId
      (saveEmailResult (saveEmailResult fs emailID s1 d1 ip1 h1 ml1 date ts1)
        emailID s2 d2 ip2 h2 ml2 date ts2) emailID =
    [(⟨date, statusDirOf s2, emailID ++ bytes ".json"⟩,
      ⟨emailID, s2, d2, ts2, ip2, h2, ml2⟩)] := by
  unfold saveEmailResult writeRecord
  rw [hsame]
  unfold recordsOfId
  rw [List.filter_cons_of_pos (by simp)]
  rw [List.filter_cons_of_neg (by simp)]
  have h2' := recordsOfId_filter_nil fs emailID
    (fun e => decide (e.1 ≠ ⟨date, statusDirOf s2, emailID ++ bytes ".json"⟩)) hfresh
  have h3' := recordsOfId_filter_nil
    (fs.filter (fun e => decide (e.1 ≠ ⟨date, statusDirOf s2, emailID ++ bytes ".json"⟩)))
    emailID
    (fun e => decide (e.1 ≠ ⟨date, statusDirOf s2, emailID ++ bytes ".json"⟩)) h2'
  unfold recordsOfId at h3'
  rw [h3']

/-- C3 witness: two concrete failure outcomes recorded under one fresh
identifier on the same date leave exactly the second record, by the
theorem. -/
theorem c3_record_overwrites_same_status_witness :
    recordsOfId
      (saveEmailResult
        (saveEmailResult [] (bytes "id-3") (bytes "failure") (bytes "d1") (bytes "ip")
          [] 1 (bytes "2026-10-11") (bytes "t1"))
        (bytes "id-3") (bytes "failure") (bytes "d2") (bytes "ip")
        [] 2 (bytes "2026-10-11") (bytes "t2")) (bytes "id-3") =
    [(⟨bytes "2026-10-11", statusDirOf (bytes "failure"), bytes "id-3" ++ bytes ".json"⟩,
      ⟨bytes "id-3", bytes "failure", bytes "d2", bytes "t2", bytes "ip", [], 2⟩)] :=
  c3_record_overwrites_same_status [] (bytes "id-3") (bytes "failure") (bytes "d1")
    (bytes "ip") (bytes "failure") (bytes "d2") (bytes "ip") [] [] 1 2
    (bytes "2026-10-11") (bytes "t1") (bytes "t2") (by decide) (by decide)

/-- C4: round-trip of the attachment naming scheme — staging builds
the object name as the 36-byte unique id, a `_` separator, then the
original filename; the dispatcher's decoding drops the 37-byte unique
id and recovers the original filename exactly (for every filename). -/
theorem c4_attachment_name_roundtrip (uuid filename : GoString)
    (h : uuid.length = 36) :
    decodeAttachmentFilename (mkObjectName uuid filename) = filename := by
  unfold mkObjectName decodeAttachmentFilename
  have hb : bytes "_" = [95] := by decide
  rw [hb]
  have hlen : (uuid ++ [95]).length = 37 := by simp [h]
  have hidx : (uuid ++ [95] ++ filename)[36]? = some 95 := by
    rw [List.append_assoc, List.getElem?_append_right (by omega), h]
    simp
  rw [if_pos ⟨by simp [h], hidx⟩, List.drop_left' hlen]

/-- The 36-byte textual form of a sample UUID. -/
def sampleUuid : GoString := bytes "123e4567-e89b-12d3-a456-426614174000"

/-- C4 witness: a concrete staged name round-trips back to the
original filename. -/
theorem c4_attachment_name_roundtrip_witness :
    decodeAttachmentFilename (mkObjectName sampleUuid (bytes "report.pdf")) =
      bytes "report.pdf" :=
  c4_attachment_name_roundtrip sampleUuid (bytes "report.pdf") (by decide)

/-- C5 counterexample: in the attachment variant the claim fails — with
`use_password` true and a distinct display identity configured, the
composed From header carries the display identity as a bare substitute
address, not as a display name wrapping the authenticated sender. -/
theorem c5_from_header_counterexample :
    sampleConfig.usePassword = true ∧
    GetDisplayEmail sampleConfig ≠ sampleConfig.senderEmail ∧
    fromHeaderAttach sampleConfig = .plainAddr (bytes "display@example.com") ∧
    fromHeaderAttach sampleConfig ≠
      .withDisplayName sampleConfig.senderEmail (GetDisplayEmail sampleConfig) := by
  decide

/-- C5 (amended): in the non-attachment variant (the composer carrying
the SMTP-553-avoidance rule), with `use_password` true a distinct
display identity is presented as a display name wrapping the
authenticated sender address — never as a substitute address — and with
`use_password` false the display identity is used verbatim as From; the
attachment variant instead always uses the display identity verbatim
as From, even under authentication. -/
theorem c5_from_header_by_variant (cfg : Config) :
    (cfg.usePassword = true → GetDisplayEmail cfg ≠ cfg.senderEmail →
      fromHeaderNoAttach cfg = .withDisplayName cfg.senderEmail (GetDisplayEmail cfg)) ∧
    (cfg.usePassword = true → GetDisplayEmail cfg = cfg.senderEmail →
      fromHeaderNoAttach cfg = .plainAddr cfg.senderEmail) ∧
    (cfg.usePassword = false →
      fromHeaderNoAttach cfg = .plainAddr (GetDisplayEmail cfg)) ∧
    fromHeaderAttach cfg = .plainAddr (GetDisplayEmail cfg) := by
  refine ⟨?_, ?_, ?_, rfl⟩
  · intro hu hd
    unfold fromHeaderNoAttach
    rw [if_pos hu]
    dsimp only
    rw [if_pos hd]
  · intro hu hd
    unfold fromHeaderNoAttach
    rw [if_pos hu]
    dsimp only
    rw [if_neg (by simpa using hd)]
  · intro hu
    unfold fromHeaderNoAttach
    rw [if_neg (by simp [hu])]

/-- C5 witness: at the sample configuration (authenticated, distinct
display identity) the non-attachment composer wraps the authenticated
address with the display name. -/
theorem c5_from_header_by_variant_witness :
    fromHeaderNoAttach sampleConfig =
      .withDisplayName (bytes "auth@example.com") (bytes "display@example.com") := by
  rw [(c5_from_header_by_variant sampleConfig).1 (by decide) (by decide)]
  decide

/-- C6: submitting more files than the maximum of 2 (with otherwise
valid fields) is rejected with 400 and the attachment-count message
before any file is uploaded: the object store ends empty and no
dispatch (hence no outcome record) happens. -/
theorem c6_attachment_count_rejected_before_staging
    (cfg : Config) (req0 : EmailRequest) (files : List FileUpload)
    (uuids : Nat → GoString) (uploadOk : GoString → Bool)
    (freshId clientIP : GoString) (headers : List (GoString × GoString))
    (getFile : GoString → Except GoString GoString) (transport : Except GoString Unit)
    (date timestamp : GoString) (fs : FileSys)
    (hvalid : validateEmailRequest cfg (defaultBodyType req0) = .ok ())
    (hcount : files.length > 2) :
    sendEmailWithAttachmentsHandler cfg req0 files uuids uploadOk freshId clientIP
      headers getFile transport date timestamp fs =
    (.badRequest (bytes "You can only upload up to 2 attachments"), [], fs) := by
  unfold sendEmailWithAttachmentsHandler
  dsimp only
  rw [hvalid]
  dsimp only
  rw [if_pos hcount]

/-- Three sample one-byte uploads. -/
def threeFiles : List FileUpload :=
  [⟨bytes "a.txt", 1, bytes "x"⟩, ⟨bytes "b.txt", 1, bytes "y"⟩,
   ⟨bytes "c.txt", 1, bytes "z"⟩]

/-- C6 witness: three concrete files against the ceiling of 2 are
rejected with the count message, the store stays empty and the tree
untouched. -/
theorem c6_attachment_count_rejected_before_staging_witness :
    sendEmailWithAttachmentsHandler sampleConfig sampleRequest threeFiles
      (fun _ => bytes "u") (fun _ => true) (bytes "id-6") (bytes "ip") []
      (fun _ => .ok []) (.ok ()) (bytes "2026-10-11") (bytes "t") [] =
    (.badRequest (bytes "You can only upload up to 2 attachments"), [], []) := by
  rw [c6_attachment_count_rejected_before_staging sampleConfig sampleRequest threeFiles
    (fun _ => bytes "u") (fun _ => true) (bytes "id-6") (bytes "ip") []
    (fun _ => .ok []) (.ok ()) (bytes "2026-10-11") (bytes "t") []
    (by decide) (by decide)]

/-- Go `utf8.RuneCountInString` on a byte string: the number of
characters, i.e. the bytes that are not UTF-8 continuation bytes.
This follows the claim's words (character count), to be compared with
the code's `len` (byte count). -/
def runeCount (s : GoString) : Nat :=
  (s.filter (fun b => !(128 ≤ b && b < 192))).length

/-- A sample request used for the C7 counterexample. -/
def c7Request : EmailRequest where
  recipientEmail := bytes "e@f"
  subject := bytes "ab"
  body := bytes "cd"
  bodyType := bytes "plain"
  debug := false

/-- C7 counterexample: a dispatch attempt whose attachment fetch fails
records a `failure` outcome whose message_length is 0, not the sum of
the character lengths of subject, body and recipient (here 7) — so the
claim's "including on failure outcomes" does not hold for
attachment-failure outcomes. -/
theorem c7_message_length_counterexample :
    ((SendEmail c7Request (bytes "id-7") (bytes "ip") [] [bytes "obj"]
        (fun _ => .error (bytes "boom")) (.ok ()) (bytes "2026-10-11") (bytes "t")
        []).2.head?.map (fun e => e.2.messageLength)) = some 0 ∧
    runeCount c7Request.subject + runeCount c7Request.body +
      runeCount c7Request.recipientEmail = 7 ∧
    (0 : Int) ≠ 7 := by decide

/-- C7 (amended): the outcome record written by a dispatch attempt has
message_length equal to the sum of the Go byte lengths (`len`) of the
subject, body and recipient — for the success outcome and for the
transport-failure outcome alike; the record written when fetching an
attachment fails instead carries message_length 0. (Byte lengths
coincide with character counts on ASCII input only.) -/
theorem c7_message_length_sum (req : EmailRequest) (emailID clientIP : GoString)
    (headers : List (GoString × GoString)) (attachmentNames : List GoString)
    (getFile : GoString → Except GoString GoString) (transport : Except GoString Unit)
    (date timestamp : GoString) (fs : FileSys) :
    (addAttachments getFile attachmentNames = .ok () →
      ((SendEmail req emailID clientIP headers attachmentNames getFile transport
          date timestamp fs).2.head?.map (fun e => e.2.messageLength)) =
        some ((goLen req.subject : Int) + goLen req.body + goLen req.recipientEmail)) ∧
    (∀ e, addAttachments getFile attachmentNames = .error e →
      ((SendEmail req emailID clientIP headers attachmentNames getFile transport
          date timestamp fs).2.head?.map (fun e => e.2.messageLength)) = some 0) := by
  constructor
  · intro hok
    unfold SendEmail
    rw [hok]
    cases transport with
    | error e => simp [saveEmailResult, writeRecord]
    | ok u => cases u; simp [saveEmailResult, writeRecord]
  · intro e herr
    unfold SendEmail
    rw [herr]
    simp [saveEmailResult, writeRecord]

/-- C7 witness: with no attachments and a failing transport, the
concrete failure record carries 2 + 5 + 16 = 23; with a failing
attachment fetch, the record carries 0. -/
theorem c7_message_length_sum_witness :
    ((SendEmail sampleRequest (bytes "id-7a") (bytes "ip") [] []
        (fun _ => .ok []) (.error (bytes "x")) (bytes "2026-10-11") (bytes "t")
        []).2.head?.map (fun e => e.2.messageLength)) = some 23 ∧
    ((SendEmail sampleRequest (bytes "id-7b") (bytes "ip") [] [bytes "obj"]
        (fun _ => .error (bytes "boom")) (.ok ()) (bytes "2026-10-11") (bytes "t")
        []).2.head?.map (fun e => e.2.messageLength)) = some 0 := by
  constructor
  · rw [(c7_message_length_sum sampleRequest (bytes "id-7a") (bytes "ip") [] []
      (fun _ => .ok []) (.error (bytes "x")) (bytes "2026-10-11") (bytes "t") []).1
      (by decide)]
    decide
  · exact (c7_message_length_sum sampleRequest (bytes "id-7b") (bytes "ip") [] [bytes "obj"]
      (fun _ => .error (bytes "boom")) (.ok ()) (bytes "2026-10-11") (bytes "t") []).2
      (bytes "failed to get file from storage: " ++ bytes "boom") (by decide)

/-- C8: the sanitized header map never records an entry whose key
lowercases to `x-api-key`, and retains every other header that has at
least one value, with its first value. -/
theorem c8_headers_exclude_api_key (hs : List (GoString × List GoString)) :
    (∀ p ∈ getHeaders hs, goToLower p.1 ≠ bytes "x-api-key") ∧
    (∀ k v vs, (k, v :: vs) ∈ hs → goToLower k ≠ bytes "x-api-key" →
      (k, v) ∈ getHeaders hs) := by
  constructor
  · intro p hp
    unfold getHeaders at hp
    rw [List.mem_filterMap] at hp
    obtain ⟨kv, _, heq⟩ := hp
    split at heq
    · exact absurd heq (by simp)
    · split at heq
      · rename_i hcond
        injection heq with h
        subst h
        exact hcond
      · exact absurd heq (by simp)
  · intro k v vs hmem hne
    unfold getHeaders
    rw [List.mem_filterMap]
    refine ⟨(k, v :: vs), hmem, ?_⟩
    dsimp only
    rw [if_pos hne]

/-- Sample inbound headers: the API key header plus a two-valued
User-Agent header. -/
def sampleHeaders : List (GoString × List GoString) :=
  [(bytes "X-Api-Key", [bytes "secret"]),
   (bytes "User-Agent", [bytes "curl", bytes "z"])]

/-- C8 witness: at concrete headers, the User-Agent header is retained
with its first value, by the retention direction of the theorem. -/
theorem c8_headers_exclude_api_key_witness :
    (bytes "User-Agent", bytes "curl") ∈ getHeaders sampleHeaders :=
  (c8_headers_exclude_api_key sampleHeaders).2 (bytes "User-Agent") (bytes "curl")
    [bytes "z"] (by decide) (by decide)

/-- `idxSS` finds nothing exactly on the byte strings with no `"//"`
substring. -/
theorem idxSS_eq_none_iff (l : GoString) :
    idxSS l = none ↔ ¬ ([47, 47] <:+: l) := by
  induction l with
  | nil =>
    constructor
    · intro _ hinf
      have h := hinf.sublist.length_le
      simp at h
    · intro _
      rfl
  | cons b rest ih =>
    by_cases hp : [47, 47] <+: b :: rest
    · constructor
      · intro h
        simp only [idxSS] at h
        rw [if_pos hp] at h
        exact absurd h (by simp)
      · intro h
        exact absurd hp.isInfix h
    · simp only [idxSS]
      rw [if_neg hp, Option.map_eq_none', ih]
      constructor
      · intro h hinf
        rcases List.infix_cons_iff.mp hinf with hpre | hrest
        · exact hp hpre
        · exact h hrest
      · intro h hrest
        exact h (List.infix_cons hrest)

/-- The first `"//"` in `a ++ "//" ++ b` sits at index `a.length` when
`a` itself contains no `"//"` and does not end in `'/'`. -/
theorem idxSS_append (b : GoString) :
    ∀ a : GoString, ¬ ([47, 47] <:+: a) → a.getLast? ≠ some 47 →
      idxSS (a ++ 47 :: 47 :: b) = some a.length := by
  intro a
  induction a with
  | nil =>
    intro _ _
    rw [List.nil_append]
    simp only [idxSS]
    rw [if_pos ⟨b, rfl⟩]
    rfl
  | cons x a' ih =>
    intro ha hl
    have hnp : ¬ ([47, 47] <+: x :: (a' ++ 47 :: 47 :: b)) := by
      intro hpre
      rw [List.cons_prefix_cons] at hpre
      obtain ⟨hx, hpre'⟩ := hpre
      cases a' with
      | nil =>
        exact hl (by rw [← hx]; rfl)
      | cons y a'' =>
        rw [List.cons_append, List.cons_prefix_cons] at hpre'
        obtain ⟨hy, _⟩ := hpre'
        exact ha (List.IsPrefix.isInfix ⟨a'', by simp [← hx, ← hy]⟩)
    have ha' : ¬ ([47, 47] <:+: a') := fun hinf => ha (List.infix_cons hinf)
    have hl' : a'.getLast? ≠ some 47 := by
      cases a' with
      | nil => simp
      | cons y a'' =>
        rw [List.getLast?_cons_cons] at hl
        exact hl
    rw [List.cons_append]
    simp only [idxSS]
    rw [if_neg hnp, ih ha' hl']
    rfl

/-- The per-line transform as the claim words it — discard everything
from the first line-comment marker onward, with no trimming. Stated
for comparison with the source transform `stripLineComment`. -/
def stripLineCommentClaimed (line : GoString) : GoString :=
  match idxSS line with
  | some p => line.take p
  | none => line

/-- The whole-document transform as the claim words it. -/
def removeJSONCommentsClaimed (data : GoString) : GoString :=
  joinNL ((splitNL data).map stripLineCommentClaimed)

/-- C9 counterexample: on the line `  "a": 1,   // comment` the code
does not merely discard from the marker onward — it additionally trims
the kept prefix, so the output differs from the claimed transform
(which keeps the surrounding whitespace). -/
theorem c9_comment_stripping_counterexample :
    removeJSONComments (bytes "  \"a\": 1,   // comment") = bytes "\"a\": 1," ∧
    removeJSONCommentsClaimed (bytes "  \"a\": 1,   // comment") =
      bytes "  \"a\": 1,   " ∧
    removeJSONComments (bytes "  \"a\": 1,   // comment") ≠
      removeJSONCommentsClaimed (bytes "  \"a\": 1,   // comment") := by decide

/-- C9 (amended): loading a configuration file with the `.jsonc`
suffix strips comments line by line before JSON parsing (other paths
are parsed as-is): a line with no `"//"` marker is kept verbatim, and a
line `a ++ "//" ++ b` whose prefix `a` contains no marker (and does not
end in `/`) is replaced by `a` with surrounding whitespace trimmed — so
everything from the first marker onward is discarded and the kept
prefix is additionally whitespace-trimmed; a marker inside a quoted
string value still counts, corrupting that line (the documented
limitation of the naive stripper). -/
theorem c9_jsonc_comment_stripping :
    (∀ path data : GoString, goHasSuffix path (bytes ".jsonc") = true →
      preprocessConfigData path data = joinNL ((splitNL data).map stripLineComment)) ∧
    (∀ path data : GoString, goHasSuffix path (bytes ".jsonc") = false →
      preprocessConfigData path data = data) ∧
    (∀ l : GoString, ¬ ([47, 47] <:+: l) → stripLineComment l = l) ∧
    (∀ a b : GoString, ¬ ([47, 47] <:+: a) → a.getLast? ≠ some 47 →
      stripLineComment (a ++ [47, 47] ++ b) = goTrimSpace a) := by
  refine ⟨?_, ?_, ?_, ?_⟩
  · intro path data h
    unfold preprocessConfigData
    rw [if_pos h]
    rfl
  · intro path data h
    unfold preprocessConfigData
    rw [if_neg (by simp [h])]
  · intro l h
    unfold stripLineComment
    rw [(idxSS_eq_none_iff l).mpr h]
  · intro a b ha hl
    unfold stripLineComment
    have hc : ([47, 47] : GoString) ++ b = 47 :: 47 :: b := rfl
    rw [List.append_assoc, hc, idxSS_append b a ha hl]
    dsimp only
    rw [List.take_left]

/-- C9 witness: a `//` inside a quoted JSON string value corrupts that
line — by the marker-splitting direction of the theorem, the kept part
is only the text before `//`. -/
theorem c9_jsonc_comment_stripping_witness :
    stripLineComment (bytes "\"url\": \"http://x\"") = bytes "\"url\": \"http:" ∧
    bytes "\"url\": \"http:" ≠ bytes "\"url\": \"http://x\"" := by
  constructor
  · have he : bytes "\"url\": \"http://x\"" =
        bytes "\"url\": \"http:" ++ [47, 47] ++ bytes "x\"" := by decide
    rw [he, c9_jsonc_comment_stripping.2.2.2 (bytes "\"url\": \"http:") (bytes "x\"")
      (by decide) (by decide)]
    decide
  · decide

/-- A configuration that explicitly sets a negative body limit. -/
def negLimitConfig : Config := { sampleConfig with maxLenBody := -1 }

/-- C10 counterexample: a configured limit of -1 survives
`setDefaults` unchanged, so after loading the body limit is not
positive — the claim that all three limits are positive after loading
fails for explicitly configured negative values. -/
theorem c10_limit_defaults_counterexample :
    (setDefaults negLimitConfig).maxLenBody = -1 ∧
    ¬ (0 < (setDefaults negLimitConfig).maxLenBody) := by decide

/-- C10 (amended): each of the three length limits that is zero after
parsing is silently replaced by its default — 64 for recipient length,
255 for subject, 50000 for body — so after loading no limit is exactly
0, and the limits are positive provided the parsed values were
nonnegative (an explicitly configured negative limit survives as-is). -/
theorem c10_limit_defaults (c : Config) :
    ((setDefaults c).maxLenRecipientEmail =
      if c.maxLenRecipientEmail = 0 then 64 else c.maxLenRecipientEmail) ∧
    ((setDefaults c).maxLenSubject =
      if c.maxLenSubject = 0 then 255 else c.maxLenSubject) ∧
    ((setDefaults c).maxLenBody =
      if c.maxLenBody = 0 then 50000 else c.maxLenBody) ∧
    (setDefaults c).maxLenRecipientEmail ≠ 0 ∧
    (setDefaults c).maxLenSubject ≠ 0 ∧
    (setDefaults c).maxLenBody ≠ 0 ∧
    (0 ≤ c.maxLenRecipientEmail → 0 < (setDefaults c).maxLenRecipientEmail) ∧
    (0 ≤ c.maxLenSubject → 0 < (setDefaults c).maxLenSubject) ∧
    (0 ≤ c.maxLenBody → 0 < (setDefaults c).maxLenBody) := by
  unfold setDefaults
  dsimp only
  split_ifs <;> simp_all <;> omega

/-- C10 witness: at the sample configuration all three limits are
positive, by the positivity direction of the theorem. -/
theorem c10_limit_defaults_witness :
    0 < (setDefaults sampleConfig).maxLenRecipientEmail ∧
    0 < (setDefaults sampleConfig).maxLenSubject ∧
    0 < (setDefaults sampleConfig).maxLenBody :=
  ⟨(c10_limit_defaults sampleConfig).2.2.2.2.2.2.1 (by decide),
   (c10_limit_defaults sampleConfig).2.2.2.2.2.2.2.1 (by decide),
   (c10_limit_defaults sampleConfig).2.2.2.2.2.2.2.2 (by decide)⟩

end Smtogo
